import Mathlib

/-!
# The dataset-collection worker (`src/worker.js`)

A shallow embedding of the single request handler `fetch(request, env)` of
`src/worker.js`, and theorems about it.

Modelling decisions.

* A JavaScript string is a Lean `String`.  Form fields are USVStrings, so every
  field is a sequence of Unicode scalar values; where the source works on
  UTF-16 code units (the global regular-expression replacement of line 46) a
  character outside the Basic Multilingual Plane counts as its two code units.
* `Date.now()` and `Math.floor(Math.random() * 10000)` are read from a
  `Runtime` record: the clock reading is a natural number, the draw is a
  `Fin 10000`.
* `await request.formData()` either yields the list of form entries or throws;
  its outcome is a field of the request.
* The bucket maps keys to objects.  A `put` either stores the object under its
  key (replacing what was there) or throws and leaves the bucket as it was; the
  outcome of each of the two `put` calls is read from the `Runtime` record.
* Every `await request.formData()` and every `env.DATASET_BUCKET.put(...)` is
  recorded in a list of calls, so that "no store write" and "no retry" can be
  stated.
-/

namespace Worker

/-! ## JavaScript values that occur in the handler -/

/-- A `File` form entry: its bytes (each below 256) and its declared MIME type. -/
structure File where
  bytes : List Nat
  type : String
deriving DecidableEq, Repr

/-- What `formData.get(name)` can return: `null`, a string, or a `File`. -/
inductive JSValue where
  | null
  | string (s : String)
  | file (f : File)
deriving DecidableEq, Repr

/-- JavaScript truthiness (the operand of `!` on line 38): `null` and the empty
string are falsy, every other string and every `File` object is truthy. -/
def JSValue.truthy : JSValue → Bool
  | .null => false
  | .string s => s != ""
  | .file _ => true

/-- The property read `imageFile.type` of line 54: the declared type of a
`File`, `undefined` (here `none`) for a string.  Line 38 excludes `null`. -/
def JSValue.type : JSValue → Option String
  | .file f => some f.type
  | _ => none

/-- The form entries, in order. -/
abbrev FormData := List (String × JSValue)

/-- The call `formData.get(name)`: the first value stored under `name`, `null`
when there is none. -/
def FormData.get (formData : FormData) (name : String) : JSValue :=
  match formData.find? (fun entry => entry.1 == name) with
  | some entry => entry.2
  | none => .null

/-- An inbound request: its method and the outcome of `await request.formData()`
(the parsed entries, or the message of the failure it throws). -/
structure Request where
  method : String
  formData : Except String FormData

/-- A response: status, body (`none` for the `null` body) and headers. -/
structure Response where
  status : Nat
  body : Option String
  headers : List (String × String)
deriving DecidableEq, Repr

/-- The constructor `new Response(body, { status, headers })`: the status
defaults to 200, and a string body with no `Content-Type` among the given
headers gets `text/plain;charset=UTF-8` (Fetch standard). -/
def Response.new (body : Option String) (status : Option Nat)
    (headers : List (String × String)) : Response :=
  { status := status.getD 200
    body := body
    headers :=
      if body.isSome && !headers.any (fun h => h.1 == "Content-Type") then
        headers ++ [("Content-Type", "text/plain;charset=UTF-8")]
      else headers }

/-- The value of the header `name`, when the response carries it. -/
def Response.header (r : Response) (name : String) : Option String :=
  match r.headers.find? (fun h => h.1 == name) with
  | some h => some h.2
  | none => none

/-! ## `JSON.stringify` on the two object literals of lines 64 and 72 -/

/-- The property values that occur: `true` and strings. -/
inductive JSONValue where
  | bool (b : Bool)
  | str (s : String)
deriving DecidableEq, Repr

/-- The escape of one character inside a JSON string (QuoteJSONString): the
quote, the backslash, the five short escapes, `\u00xx` for the other control
characters, every other character unchanged. -/
def quoteChar (c : Char) : List Char :=
  if c = Char.ofNat 34 then [Char.ofNat 92, Char.ofNat 34]
  else if c = Char.ofNat 92 then [Char.ofNat 92, Char.ofNat 92]
  else if c = Char.ofNat 8 then [Char.ofNat 92, 'b']
  else if c = Char.ofNat 12 then [Char.ofNat 92, 'f']
  else if c = Char.ofNat 10 then [Char.ofNat 92, 'n']
  else if c = Char.ofNat 13 then [Char.ofNat 92, 'r']
  else if c = Char.ofNat 9 then [Char.ofNat 92, 't']
  else if c.toNat < 32 then
    [Char.ofNat 92, 'u', '0', '0', Nat.digitChar (c.toNat / 16), Nat.digitChar (c.toNat % 16)]
  else [c]

/-- A string as a JSON string literal. -/
def quoteJSONString (s : String) : String :=
  ⟨Char.ofNat 34 :: s.data.flatMap quoteChar ++ [Char.ofNat 34]⟩

/-- One value as JSON text. -/
def JSONValue.stringify : JSONValue → String
  | .bool true => "true"
  | .bool false => "false"
  | .str s => quoteJSONString s

/-- The call `JSON.stringify(obj)` on an object literal whose properties are
listed in order: no whitespace, properties separated by commas. -/
def JSON.stringify (properties : List (String × JSONValue)) : String :=
  "\x7b" ++ ",".intercalate
    (properties.map (fun p => quoteJSONString p.1 ++ ":" ++ p.2.stringify)) ++ "\x7d"

/-! ## The file-name clean-up of line 46 -/

/-- The class `[^/.]`. -/
def notSlashDot (c : Char) : Bool := c != '/' && c != '.'

/-- Whether `\.[^/.]+$` matches at the head of the input: a dot, then one or
more characters of `[^/.]`, then the end of the input. -/
def extensionMatchesAt : List Char → Bool
  | [] => false
  | c :: rest => c == '.' && !rest.isEmpty && rest.all notSlashDot

/-- The call `.replace(/\.[^/.]+$/, "")` on the characters of a string: the
leftmost match is replaced by the empty string.  A match runs to the end of the
input, so what is left is the text before it. -/
def replaceExtension : List Char → List Char
  | [] => []
  | c :: rest => if extensionMatchesAt (c :: rest) then [] else c :: replaceExtension rest

/-- The class `[a-zA-Z0-9-_]` (the complement of the one on line 46). -/
def isSafeChar (c : Char) : Bool :=
  ('a' ≤ c && c ≤ 'z') || ('A' ≤ c && c ≤ 'Z') || ('0' ≤ c && c ≤ '9') || c == '-' || c == '_'

/-- The number of UTF-16 code units of a character. -/
def utf16Units (c : Char) : Nat := if c.toNat < 65536 then 1 else 2

/-- The call `.replace(/[^a-zA-Z0-9-_]/g, "_")` on the characters of a string:
every code unit outside the class becomes an underscore. -/
def replaceUnsafe (cs : List Char) : List Char :=
  cs.flatMap (fun c => if isSafeChar c then [c] else List.replicate (utf16Units c) '_')

/-- The expression of line 46 on a string `originalName`. -/
def safeNameOf (originalName : String) : String :=
  ⟨replaceUnsafe (replaceExtension originalName.data)⟩

/-- The message of the `TypeError` V8 throws for `null.replace`. -/
def nullReplaceMessage : String := "Cannot read properties of null (reading \x27replace\x27)"

/-- The message of the `TypeError` V8 throws when `originalName` is a `File`,
which has no `replace` method. -/
def notAFunctionMessage : String := "originalName.replace is not a function"

/-- Line 46 on whatever `formData.get("filename")` returned: the clean name of
a string, a thrown `TypeError` for `null` and for a `File`. -/
def safeName : JSValue → Except String String
  | .string s => .ok (safeNameOf s)
  | .null => .error nullReplaceMessage
  | .file _ => .error notAFunctionMessage

/-- The template literal of line 47. -/
def uniqueId (timestamp random : Nat) (safeName : String) : String :=
  toString timestamp ++ "_" ++ toString random ++ "_" ++ safeName

/-! ## The bucket and the runtime -/

/-- The content handed to `put`: the bytes of a `File`, or a string. -/
inductive Content where
  | bytes (b : List Nat)
  | text (s : String)
deriving DecidableEq, Repr

/-- The content of a form value passed as the second argument of `put`;
line 38 excludes `null`. -/
def JSValue.content : JSValue → Content
  | .file f => .bytes f.bytes
  | .string s => .text s
  | .null => .text ""

/-- A stored object: its content and its `httpMetadata.contentType`
(`none` when the code passed `undefined`). -/
structure StoredObject where
  content : Content
  contentType : Option String
deriving DecidableEq, Repr

/-- The bucket bound to `env.DATASET_BUCKET`: the object stored under each key. -/
abbrev Bucket := String → Option StoredObject

/-- The binding object `env`. -/
structure Env where
  DATASET_BUCKET : Bucket

/-- What the handler reads from its surroundings: the value of `Date.now()`,
the value of `Math.floor(Math.random() * 10000)`, and for the `put` of line 51
and the `put` of line 58 whether it throws (`some message`) or succeeds
(`none`). -/
structure Runtime where
  now : Nat
  random : Fin 10000
  imagePut : Option String
  labelPut : Option String

/-- The calls the handler makes on the request and on the bucket. -/
inductive Call where
  | formData
  | put (key : String)
deriving DecidableEq, Repr

/-- The state threaded through one run of the handler: the bucket and the calls
made so far. -/
structure State where
  bucket : Bucket
  calls : List Call

/-- The call `await env.DATASET_BUCKET.put(key, value, { httpMetadata: { contentType } })`:
it is recorded; when the runtime makes it throw (`outcome = some message`) the
bucket is unchanged, otherwise the object is stored under `key`. -/
def State.put (s : State) (outcome : Option String) (key : String) (value : Content)
    (contentType : Option String) : Except String Unit × State :=
  match outcome with
  | some message => (.error message, { bucket := s.bucket, calls := s.calls ++ [.put key] })
  | none =>
    (.ok (),
      { bucket := fun k => if k = key then some ⟨value, contentType⟩ else s.bucket k
        calls := s.calls ++ [.put key] })

/-! ## The handler -/

/-- The header set of the pre-flight response (lines 19 to 23). -/
def preflightHeaders : List (String × String) :=
  [("Access-Control-Allow-Origin", "*"),
   ("Access-Control-Allow-Methods", "POST, OPTIONS"),
   ("Access-Control-Allow-Headers", "Content-Type")]

/-- The body of the `try` block (lines 33 to 69): the response it returns or the
message of the failure it throws, and the state it leaves. -/
def tryBlock (rt : Runtime) (request : Request) (s : State) : Except String Response × State :=
  let s := { s with calls := s.calls ++ [.formData] }
  match request.formData with
  | .error message => (.error message, s)
  | .ok formData =>
    let imageFile := formData.get "image"
    let labelText := formData.get "label"
    let originalName := formData.get "filename"
    if !imageFile.truthy || !labelText.truthy then
      (.ok (Response.new (some "Missing image or label") (some 400) []), s)
    else
      let timestamp := rt.now
      let random := rt.random.val
      match safeName originalName with
      | .error message => (.error message, s)
      | .ok safeName =>
        let uniqueId := uniqueId timestamp random safeName
        match s.put rt.imagePut ("images/" ++ uniqueId ++ ".jpg") imageFile.content
            imageFile.type with
        | (.error message, s) => (.error message, s)
        | (.ok (), s) =>
          match s.put rt.labelPut ("labels/" ++ uniqueId ++ ".txt") labelText.content
              (some "text/plain") with
          | (.error message, s) => (.error message, s)
          | (.ok (), s) =>
            (.ok (Response.new
                (some (JSON.stringify [("success", .bool true), ("id", .str uniqueId)]))
                none
                [("Content-Type", "application/json"), ("Access-Control-Allow-Origin", "*")]),
              s)

/-- What one run of the handler leaves behind. -/
structure Outcome where
  response : Response
  bucket : Bucket
  calls : List Call

/-- The handler `fetch(request, env)` (lines 15 to 77). -/
def fetch (rt : Runtime) (request : Request) (env : Env) : Outcome :=
  if request.method = "OPTIONS" then
    ⟨Response.new none none preflightHeaders, env.DATASET_BUCKET, []⟩
  else if request.method ≠ "POST" then
    ⟨Response.new (some "Method Not Allowed") (some 405) [], env.DATASET_BUCKET, []⟩
  else
    match tryBlock rt request ⟨env.DATASET_BUCKET, []⟩ with
    | (.ok response, s) => ⟨response, s.bucket, s.calls⟩
    | (.error message, s) =>
      ⟨Response.new (some (JSON.stringify [("error", .str message)])) (some 500)
          [("Access-Control-Allow-Origin", "*")],
        s.bucket, s.calls⟩

/-- The response of the `catch` block (lines 72 to 75) for a failure `message`. -/
def errorResponse (message : String) : Response :=
  Response.new (some (JSON.stringify [("error", .str message)])) (some 500)
    [("Access-Control-Allow-Origin", "*")]

/-- The response of lines 64 to 69 for an identifier. -/
def successResponse (id : String) : Response :=
  Response.new (some (JSON.stringify [("success", .bool true), ("id", .str id)])) none
    [("Content-Type", "application/json"), ("Access-Control-Allow-Origin", "*")]

/-! ## Reading a decimal rendering -/

/-- The value of a decimal digit character. -/
def digitValue (c : Char) : Nat := c.toNat - 48

/-! ## Concrete inputs -/

/-- Ten bytes declared as `image/jpeg`. -/
def exampleImage : File := ⟨[255, 216, 255, 224, 0, 16, 74, 70, 73, 70], "image/jpeg"⟩

/-- A second image, of other bytes and another declared type. -/
def otherImage : File := ⟨[137, 80, 78, 71], "image/png"⟩

/-- A complete submission for `cat.jpg`. -/
def exampleForm : FormData :=
  [("image", .file exampleImage), ("label", .string "0 0.5 0.5 0.2 0.2"),
   ("filename", .string "cat.jpg")]

/-- A second complete submission for the same file name. -/
def otherForm : FormData :=
  [("image", .file otherImage), ("label", .string "1 0.1 0.1 0.3 0.3"),
   ("filename", .string "cat.jpg")]

/-- A submission with image and label but no `filename` field. -/
def namelessForm : FormData :=
  [("image", .file exampleImage), ("label", .string "0 0.5 0.5 0.2 0.2")]

/-- A submission whose label is the empty string. -/
def emptyLabelForm : FormData :=
  [("image", .file exampleImage), ("label", .string ""), ("filename", .string "cat.jpg")]

/-- A submission with no `label` field. -/
def unlabelledForm : FormData :=
  [("image", .file exampleImage), ("filename", .string "cat.jpg")]

/-- A runtime in which both writes succeed. -/
def calmRuntime : Runtime := ⟨1700000000000, 42, none, none⟩

/-- A later clock reading, the same draw, both writes succeeding. -/
def laterRuntime : Runtime := ⟨1700000000001, 42, none, none⟩

/-- A runtime in which the image write succeeds and the label write throws. -/
def labelFaultRuntime : Runtime := ⟨1700000000000, 42, none, some "Network connection lost."⟩

/-- A bucket with no objects. -/
def emptyEnv : Env := ⟨fun _ => none⟩

/-! # Theorems -/

/-! ## The paths through the handler -/

theorem fetch_options (rt : Runtime) (request : Request) (env : Env)
    (hm : request.method = "OPTIONS") :
    fetch rt request env = ⟨Response.new none none preflightHeaders, env.DATASET_BUCKET, []⟩ := by
  simp [fetch, hm]

theorem fetch_not_allowed (rt : Runtime) (request : Request) (env : Env)
    (ho : request.method ≠ "OPTIONS") (hp : request.method ≠ "POST") :
    fetch rt request env =
      ⟨Response.new (some "Method Not Allowed") (some 405) [], env.DATASET_BUCKET, []⟩ := by
  simp [fetch, ho, hp]

theorem fetch_parse_failure (rt : Runtime) (request : Request) (env : Env) (message : String)
    (hm : request.method = "POST") (hf : request.formData = .error message) :
    fetch rt request env = ⟨errorResponse message, env.DATASET_BUCKET, [.formData]⟩ := by
  simp [fetch, tryBlock, hm, hf, errorResponse]

theorem fetch_falsy_field (rt : Runtime) (request : Request) (env : Env) (formData : FormData)
    (hm : request.method = "POST") (hf : request.formData = .ok formData)
    (h : (formData.get "image").truthy = false ∨ (formData.get "label").truthy = false) :
    fetch rt request env =
      ⟨Response.new (some "Missing image or label") (some 400) [], env.DATASET_BUCKET,
        [.formData]⟩ := by
  rcases h with h | h <;> simp [fetch, tryBlock, hm, hf, h]

theorem fetch_name_failure (rt : Runtime) (request : Request) (env : Env) (formData : FormData)
    (message : String)
    (hm : request.method = "POST") (hf : request.formData = .ok formData)
    (hi : (formData.get "image").truthy = true) (hl : (formData.get "label").truthy = true)
    (hn : safeName (formData.get "filename") = .error message) :
    fetch rt request env = ⟨errorResponse message, env.DATASET_BUCKET, [.formData]⟩ := by
  simp [fetch, tryBlock, hm, hf, hi, hl, hn, errorResponse]

theorem fetch_image_put_failure (rt : Runtime) (request : Request) (env : Env)
    (formData : FormData) (name message : String)
    (hm : request.method = "POST") (hf : request.formData = .ok formData)
    (hi : (formData.get "image").truthy = true) (hl : (formData.get "label").truthy = true)
    (hn : safeName (formData.get "filename") = .ok name)
    (hp : rt.imagePut = some message) :
    fetch rt request env =
      ⟨errorResponse message, env.DATASET_BUCKET,
        [.formData, .put ("images/" ++ uniqueId rt.now rt.random name ++ ".jpg")]⟩ := by
  simp [fetch, tryBlock, hm, hf, hi, hl, hn, hp, State.put, errorResponse]

theorem fetch_label_put_failure (rt : Runtime) (request : Request) (env : Env)
    (formData : FormData) (name message : String)
    (hm : request.method = "POST") (hf : request.formData = .ok formData)
    (hi : (formData.get "image").truthy = true) (hl : (formData.get "label").truthy = true)
    (hn : safeName (formData.get "filename") = .ok name)
    (hp : rt.imagePut = none) (hq : rt.labelPut = some message) :
    fetch rt request env =
      ⟨errorResponse message,
        fun k =>
          if k = "images/" ++ uniqueId rt.now rt.random name ++ ".jpg" then
            some ⟨(formData.get "image").content, (formData.get "image").type⟩
          else env.DATASET_BUCKET k,
        [.formData, .put ("images/" ++ uniqueId rt.now rt.random name ++ ".jpg"),
          .put ("labels/" ++ uniqueId rt.now rt.random name ++ ".txt")]⟩ := by
  simp [fetch, tryBlock, hm, hf, hi, hl, hn, hp, hq, State.put, errorResponse]

theorem fetch_success (rt : Runtime) (request : Request) (env : Env)
    (formData : FormData) (name : String)
    (hm : request.method = "POST") (hf : request.formData = .ok formData)
    (hi : (formData.get "image").truthy = true) (hl : (formData.get "label").truthy = true)
    (hn : safeName (formData.get "filename") = .ok name)
    (hp : rt.imagePut = none) (hq : rt.labelPut = none) :
    fetch rt request env =
      ⟨successResponse (uniqueId rt.now rt.random name),
        fun k =>
          if k = "labels/" ++ uniqueId rt.now rt.random name ++ ".txt" then
            some ⟨(formData.get "label").content, some "text/plain"⟩
          else if k = "images/" ++ uniqueId rt.now rt.random name ++ ".jpg" then
            some ⟨(formData.get "image").content, (formData.get "image").type⟩
          else env.DATASET_BUCKET k,
        [.formData, .put ("images/" ++ uniqueId rt.now rt.random name ++ ".jpg"),
          .put ("labels/" ++ uniqueId rt.now rt.random name ++ ".txt")]⟩ := by
  simp [fetch, tryBlock, hm, hf, hi, hl, hn, hp, hq, State.put, successResponse]

/-! ## Decimal rendering -/

theorem digitValue_digitChar (k : Nat) (hk : k < 10) : digitValue (Nat.digitChar k) = k := by
  interval_cases k <;> rfl

theorem isSafeChar_digitChar (k : Nat) (hk : k < 10) : isSafeChar (Nat.digitChar k) = true := by
  interval_cases k <;> rfl

theorem foldl_toDigitsCore (fuel : Nat) :
    ∀ (n : Nat) (acc : List Char), n < fuel →
      (Nat.toDigitsCore 10 fuel n acc).foldl (fun a c => 10 * a + digitValue c) 0 =
        acc.foldl (fun a c => 10 * a + digitValue c) n := by
  induction fuel with
  | zero => intro n acc h; omega
  | succ fuel ih =>
    intro n acc h
    have hd : digitValue (Nat.digitChar (n % 10)) = n % 10 :=
      digitValue_digitChar _ (Nat.mod_lt _ (by norm_num))
    by_cases h0 : n / 10 = 0
    · have hn : n % 10 = n := Nat.mod_eq_of_lt (by omega)
      rw [hn] at hd
      simp [Nat.toDigitsCore, h0, hn, hd]
    · have hlt : n / 10 < fuel := by omega
      have hsum : 10 * (n / 10) + n % 10 = n := Nat.div_add_mod n 10
      simp [Nat.toDigitsCore, h0, ih (n / 10) _ hlt, hd, hsum]

theorem safe_toDigitsCore (fuel : Nat) :
    ∀ (n : Nat) (acc : List Char), (∀ c ∈ acc, isSafeChar c = true ∧ c ≠ '_') →
      ∀ c ∈ Nat.toDigitsCore 10 fuel n acc, isSafeChar c = true ∧ c ≠ '_' := by
  induction fuel with
  | zero => intro n acc h; simpa [Nat.toDigitsCore] using h
  | succ fuel ih =>
    intro n acc h
    have hd : isSafeChar (Nat.digitChar (n % 10)) = true ∧ Nat.digitChar (n % 10) ≠ '_' := by
      have hk : n % 10 < 10 := Nat.mod_lt _ (by norm_num)
      generalize n % 10 = k at hk
      interval_cases k <;> exact ⟨rfl, by decide⟩
    have hacc : ∀ c ∈ Nat.digitChar (n % 10) :: acc, isSafeChar c = true ∧ c ≠ '_' := by
      intro c hc
      rcases List.mem_cons.1 hc with rfl | hc
      · exact hd
      · exact h c hc
    by_cases h0 : n / 10 = 0
    · simpa [Nat.toDigitsCore, h0] using hacc
    · simpa [Nat.toDigitsCore, h0] using ih (n / 10) _ hacc

/-- Reading the decimal rendering of a number gives the number back. -/
theorem foldl_toString (n : Nat) :
    (toString n).data.foldl (fun a c => 10 * a + digitValue c) 0 = n := by
  show (Nat.toDigitsCore 10 (n + 1) n []).foldl _ 0 = n
  rw [foldl_toDigitsCore (n + 1) n [] (Nat.lt_succ_self n)]
  rfl

theorem toString_injective (n m : Nat) (h : toString n = toString m) : n = m := by
  have := foldl_toString n
  rw [h, foldl_toString m] at this
  exact this.symm

/-- The decimal rendering of a number consists of digits: characters of the
class `[a-zA-Z0-9-_]` other than the underscore. -/
theorem toString_safe (n : Nat) : ∀ c ∈ (toString n).data, isSafeChar c = true ∧ c ≠ '_' := by
  show ∀ c ∈ Nat.toDigitsCore 10 (n + 1) n [], _
  exact safe_toDigitsCore (n + 1) n [] (by simp)

/-! ## Lists split at a separator -/

theorem append_cons_inj {α : Type} (x : α) :
    ∀ (a₁ a₂ b₁ b₂ : List α), x ∉ a₁ → x ∉ a₂ → a₁ ++ x :: b₁ = a₂ ++ x :: b₂ →
      a₁ = a₂ ∧ b₁ = b₂ := by
  intro a₁
  induction a₁ with
  | nil =>
    intro a₂ b₁ b₂ _ h₂ h
    cases a₂ with
    | nil => simpa using h
    | cons y a₂ =>
      simp only [List.nil_append, List.cons_append, List.cons.injEq] at h
      exact absurd (by simp [h.1]) h₂
  | cons y a₁ ih =>
    intro a₂ b₁ b₂ h₁ h₂ h
    cases a₂ with
    | nil =>
      simp only [List.nil_append, List.cons_append, List.cons.injEq] at h
      exact absurd (by simp [h.1]) h₁
    | cons z a₂ =>
      simp only [List.cons_append, List.cons.injEq] at h
      have := ih a₂ b₁ b₂ (fun hx => h₁ (List.mem_cons_of_mem _ hx))
        (fun hx => h₂ (List.mem_cons_of_mem _ hx)) h.2
      exact ⟨by rw [h.1, this.1], this.2⟩

theorem uniqueId_data (t r : Nat) (name : String) :
    (uniqueId t r name).data =
      (toString t).data ++ '_' :: ((toString r).data ++ '_' :: name.data) := by
  simp [uniqueId, String.data_append]

/-- The identifier determines the clock reading, the draw and the clean name. -/
theorem uniqueId_inj (t₁ r₁ t₂ r₂ : Nat) (n₁ n₂ : String) :
    uniqueId t₁ r₁ n₁ = uniqueId t₂ r₂ n₂ ↔ t₁ = t₂ ∧ r₁ = r₂ ∧ n₁ = n₂ := by
  constructor
  · intro h
    have hd := congrArg String.data h
    rw [uniqueId_data, uniqueId_data] at hd
    have nu : ∀ n : Nat, '_' ∉ (toString n).data := fun n hc => (toString_safe n _ hc).2 rfl
    obtain ⟨h1, h2⟩ := append_cons_inj '_' _ _ _ _ (nu t₁) (nu t₂) hd
    obtain ⟨h3, h4⟩ := append_cons_inj '_' _ _ _ _ (nu r₁) (nu r₂) h2
    exact ⟨toString_injective _ _ (String.ext h1), toString_injective _ _ (String.ext h3),
      String.ext h4⟩
  · rintro ⟨rfl, rfl, rfl⟩; rfl

/-! ## The clean name -/

theorem isSafeChar_underscore : isSafeChar '_' = true := by decide

/-- Every character the second replacement leaves is in `[a-zA-Z0-9-_]`. -/
theorem replaceUnsafe_safe (cs : List Char) : ∀ c ∈ replaceUnsafe cs, isSafeChar c = true := by
  intro c hc
  simp only [replaceUnsafe, List.mem_flatMap] at hc
  obtain ⟨d, _, hd⟩ := hc
  by_cases hs : isSafeChar d = true
  · simp only [hs, if_true, List.mem_singleton] at hd
    rw [hd]; exact hs
  · simp only [hs, Bool.false_eq_true, if_false] at hd
    rw [(List.mem_replicate.1 hd).2]; exact isSafeChar_underscore

theorem replaceUnsafe_cons (c : Char) (cs : List Char) :
    replaceUnsafe (c :: cs) =
      (if isSafeChar c then [c] else List.replicate (utf16Units c) '_') ++ replaceUnsafe cs := by
  simp [replaceUnsafe, List.flatMap_cons]

/-- On characters of the Basic Multilingual Plane the second replacement is a
character-by-character map. -/
theorem replaceUnsafe_eq_map (cs : List Char) (h : ∀ c ∈ cs, c.toNat < 65536) :
    replaceUnsafe cs = cs.map (fun c => if isSafeChar c then c else '_') := by
  induction cs with
  | nil => rfl
  | cons c cs ih =>
    have hc : c.toNat < 65536 := h c (List.mem_cons_self _ _)
    rw [replaceUnsafe_cons, ih (fun d hd => h d (List.mem_cons_of_mem _ hd))]
    by_cases hs : isSafeChar c = true <;> simp [hs, utf16Units, hc]

/-- A dot followed by a non-empty run free of dots and slashes at the end of the
input is removed by the first replacement. -/
theorem replaceExtension_append (ext : List Char) (hne : ext ≠ [])
    (hext : ∀ c ∈ ext, c ≠ '.' ∧ c ≠ '/') :
    ∀ base : List Char, replaceExtension (base ++ '.' :: ext) = base := by
  have hall : ext.all notSlashDot = true := by
    rw [List.all_eq_true]
    intro c hc
    simp [notSlashDot, (hext c hc).1, (hext c hc).2]
  intro base
  induction base with
  | nil =>
    have : ext.isEmpty = false := by cases ext <;> simp_all
    simp [replaceExtension, extensionMatchesAt, hall, this]
  | cons c base ih =>
    have : (base ++ '.' :: ext).all notSlashDot = false := by
      simp [List.all_append, notSlashDot]
    simp [replaceExtension, extensionMatchesAt, this, ih]

/-- When the input does not end in such a run, the first replacement leaves it
as it is. -/
theorem replaceExtension_none (cs : List Char)
    (h : ¬ ∃ base ext, cs = base ++ '.' :: ext ∧ ext ≠ [] ∧ ∀ c ∈ ext, c ≠ '.' ∧ c ≠ '/') :
    replaceExtension cs = cs := by
  induction cs with
  | nil => rfl
  | cons c cs ih =>
    have hm : extensionMatchesAt (c :: cs) = false := by
      by_contra hm
      rw [Bool.not_eq_false] at hm
      simp only [extensionMatchesAt, Bool.and_eq_true, beq_iff_eq, Bool.not_eq_true',
        List.all_eq_true] at hm
      apply h
      refine ⟨[], cs, by simp [hm.1.1], ?_, ?_⟩
      · intro hcs; simp [hcs] at hm
      · intro d hd
        have := hm.2 d hd
        simp only [notSlashDot, Bool.and_eq_true, bne_iff_ne, ne_eq] at this
        exact ⟨this.2, this.1⟩
    have hrest : replaceExtension cs = cs := by
      apply ih
      rintro ⟨base, ext, hcs, hne, hext⟩
      exact h ⟨c :: base, ext, by simp [hcs], hne, hext⟩
    simp [replaceExtension, hm, hrest]

/-! ## Keys and identifiers -/

theorem labels_ne_images (a b : String) : "labels/" ++ a ++ ".txt" ≠ "images/" ++ b ++ ".jpg" := by
  intro h
  have := congrArg String.data h
  simp [String.data_append] at this

theorem images_key_inj (a b : String) :
    "images/" ++ a ++ ".jpg" = "images/" ++ b ++ ".jpg" ↔ a = b := by
  constructor
  · intro h
    have := congrArg String.data h
    simp only [String.data_append, List.append_assoc, List.append_cancel_left_eq] at this
    exact String.ext (List.append_cancel_right this)
  · rintro rfl; rfl

theorem labels_key_inj (a b : String) :
    "labels/" ++ a ++ ".txt" = "labels/" ++ b ++ ".txt" ↔ a = b := by
  constructor
  · intro h
    have := congrArg String.data h
    simp only [String.data_append, List.append_assoc, List.append_cancel_left_eq] at this
    exact String.ext (List.append_cancel_right this)
  · rintro rfl; rfl

/-- A character of `[a-zA-Z0-9-_]` needs no escape in a JSON string. -/
theorem quoteChar_safe (c : Char) (h : isSafeChar c = true) : quoteChar c = [c] := by
  have h34 : c ≠ Char.ofNat 34 := by rintro rfl; revert h; decide
  have h92 : c ≠ Char.ofNat 92 := by rintro rfl; revert h; decide
  have h8 : c ≠ Char.ofNat 8 := by rintro rfl; revert h; decide
  have h12 : c ≠ Char.ofNat 12 := by rintro rfl; revert h; decide
  have h10 : c ≠ Char.ofNat 10 := by rintro rfl; revert h; decide
  have h13 : c ≠ Char.ofNat 13 := by rintro rfl; revert h; decide
  have h9 : c ≠ Char.ofNat 9 := by rintro rfl; revert h; decide
  have h32 : ¬ c.toNat < 32 := by
    intro hlt
    simp only [isSafeChar, Bool.or_eq_true, Bool.and_eq_true, decide_eq_true_eq, beq_iff_eq] at h
    have e1 : ∀ d : Char, d ≤ c → d.toNat ≤ c.toNat := fun d hd => hd
    rcases h with (((h | h) | h) | h) | h
    · have := e1 _ h.1; simp at this; omega
    · have := e1 _ h.1; simp at this; omega
    · have := e1 _ h.1; simp at this; omega
    · rw [h] at hlt; simp at hlt
    · rw [h] at hlt; simp at hlt
  simp [quoteChar, h34, h92, h8, h12, h10, h13, h9, h32]

theorem flatMap_quoteChar_safe (cs : List Char) (h : ∀ c ∈ cs, isSafeChar c = true) :
    cs.flatMap quoteChar = cs := by
  induction cs with
  | nil => rfl
  | cons c cs ih =>
    rw [List.flatMap_cons, quoteChar_safe c (h c (List.mem_cons_self _ _)),
      ih (fun d hd => h d (List.mem_cons_of_mem _ hd))]
    rfl

/-- Every character of an identifier built from a clean name is in
`[a-zA-Z0-9-_]`. -/
theorem uniqueId_safe (t r : Nat) (name : String) :
    ∀ c ∈ (uniqueId t r (safeNameOf name)).data, isSafeChar c = true := by
  intro c hc
  rw [uniqueId_data] at hc
  simp only [List.mem_append, List.mem_cons] at hc
  rcases hc with hc | rfl | hc | rfl | hc
  · exact (toString_safe t c hc).1
  · exact isSafeChar_underscore
  · exact (toString_safe r c hc).1
  · exact isSafeChar_underscore
  · exact replaceUnsafe_safe _ c hc

theorem quoteJSONString_safe (s : String) (h : ∀ c ∈ s.data, isSafeChar c = true) :
    quoteJSONString s = "\x22" ++ s ++ "\x22" := by
  apply String.ext
  simp only [quoteJSONString, flatMap_quoteChar_safe _ h, String.data_append]
  rfl

/-- The success body spelled out: the identifier appears in it unescaped. -/
theorem stringify_success (t r : Nat) (name : String) :
    JSON.stringify [("success", .bool true), ("id", .str (uniqueId t r (safeNameOf name)))] =
      "\x7b\x22success\x22:true,\x22id\x22:\x22" ++ uniqueId t r (safeNameOf name) ++
        "\x22\x7d" := by
  have h1 : quoteJSONString "success" = "\x22success\x22" := by decide
  have h2 : quoteJSONString "id" = "\x22id\x22" := by decide
  apply String.ext
  simp only [JSON.stringify, JSONValue.stringify, List.map, h1, h2,
    quoteJSONString_safe _ (uniqueId_safe t r name), String.intercalate,
    String.intercalate.go, String.data_append]
  simp

/-- The error body spelled out. -/
theorem stringify_error (message : String) :
    JSON.stringify [("error", .str message)] =
      "\x7b\x22error\x22:" ++ quoteJSONString message ++ "\x7d" := by
  have h1 : quoteJSONString "error" = "\x22error\x22" := by decide
  apply String.ext
  simp only [JSON.stringify, JSONValue.stringify, List.map, h1, String.intercalate,
    String.intercalate.go, String.data_append]
  simp

/-! ## Headers of the five responses -/

theorem get_null_of_absent (formData : FormData) (name : String)
    (h : ∀ v, (name, v) ∉ formData) : formData.get name = .null := by
  have : formData.find? (fun entry => entry.1 == name) = none := by
    rw [List.find?_eq_none]
    intro entry he hname
    simp only [beq_iff_eq] at hname
    exact h entry.2 (by rw [← hname]; exact he)
  simp [FormData.get, this]

theorem errorResponse_status (m : String) : (errorResponse m).status = 500 := rfl

theorem errorResponse_body (m : String) :
    (errorResponse m).body = some ("\x7b\x22error\x22:" ++ quoteJSONString m ++ "\x7d") := by
  simp [errorResponse, Response.new, stringify_error]

theorem errorResponse_cors (m : String) :
    (errorResponse m).header "Access-Control-Allow-Origin" = some "*" := by
  simp [errorResponse, Response.new, Response.header]

theorem successResponse_cors (id : String) :
    (successResponse id).header "Access-Control-Allow-Origin" = some "*" := by
  simp [successResponse, Response.new, Response.header]

theorem successResponse_contentType (id : String) :
    (successResponse id).header "Content-Type" = some "application/json" := by
  simp [successResponse, Response.new, Response.header]

theorem preflight_headers :
    (Response.new none none preflightHeaders).header "Access-Control-Allow-Origin" = some "*" ∧
    (Response.new none none preflightHeaders).header "Access-Control-Allow-Methods" =
      some "POST, OPTIONS" ∧
    (Response.new none none preflightHeaders).header "Access-Control-Allow-Headers" =
      some "Content-Type" := by
  decide

theorem notAllowedResponse_contentType :
    (Response.new (some "Method Not Allowed") (some 405) []).header "Content-Type" =
      some "text/plain;charset=UTF-8" := by
  decide

theorem missingResponse_contentType :
    (Response.new (some "Missing image or label") (some 400) []).header "Content-Type" =
      some "text/plain;charset=UTF-8" := by
  decide

/-! ## The claims -/

/-- C1 (as the code behaves): a POST whose form has a truthy image and a truthy
label but no `filename` field is answered with status 500 and the message of the
`TypeError` raised by `null.replace`; nothing is written, no `put` is attempted. -/
theorem missing_filename_responds_500 (rt : Runtime) (request : Request) (env : Env)
    (formData : FormData)
    (hm : request.method = "POST") (hf : request.formData = .ok formData)
    (hi : (formData.get "image").truthy = true) (hl : (formData.get "label").truthy = true)
    (hn : ∀ v, ("filename", v) ∉ formData) :
    (fetch rt request env).response.status = 500 ∧
    (fetch rt request env).response.body =
      some ("\x7b\x22error\x22:" ++ quoteJSONString nullReplaceMessage ++ "\x7d") ∧
    (fetch rt request env).bucket = env.DATASET_BUCKET ∧
    (fetch rt request env).calls = [.formData] := by
  have hname : safeName (formData.get "filename") = .error nullReplaceMessage := by
    rw [get_null_of_absent formData "filename" hn]; rfl
  rw [fetch_name_failure rt request env formData _ hm hf hi hl hname]
  exact ⟨rfl, errorResponse_body _, rfl, rfl⟩

theorem missing_filename_responds_500_witness :
    (∀ v, ("filename", v) ∉ namelessForm) ∧
    (fetch calmRuntime ⟨"POST", .ok namelessForm⟩ emptyEnv).response.status = 500 ∧
    (fetch calmRuntime ⟨"POST", .ok namelessForm⟩ emptyEnv).response.body =
      some "\x7b\x22error\x22:\x22Cannot read properties of null (reading \x27replace\x27)\x22\x7d" ∧
    (fetch calmRuntime ⟨"POST", .ok namelessForm⟩ emptyEnv).calls = [.formData] :=
  have hn : ∀ v, ("filename", v) ∉ namelessForm := by
    intro v; simp [namelessForm]
  have h := missing_filename_responds_500 calmRuntime ⟨"POST", .ok namelessForm⟩ emptyEnv
    namelessForm rfl rfl (by decide) (by decide) hn
  ⟨hn, h.1, h.2.1.trans (by decide), h.2.2.2⟩

/-- C2 (as the code behaves): the response carries `Access-Control-Allow-Origin: *`
exactly when its status is neither 405 nor 400; the 405 response to a `GET` and
the 400 response to a POST with an empty form carry no such header. -/
theorem cors_header_except_405_400 :
    (∀ (rt : Runtime) (request : Request) (env : Env),
      (fetch rt request env).response.header "Access-Control-Allow-Origin" =
        if (fetch rt request env).response.status = 405 ∨
            (fetch rt request env).response.status = 400 then none
        else some "*") ∧
    (fetch calmRuntime ⟨"GET", .ok []⟩ emptyEnv).response.status = 405 ∧
    (fetch calmRuntime ⟨"GET", .ok []⟩ emptyEnv).response.header
      "Access-Control-Allow-Origin" = none ∧
    (fetch calmRuntime ⟨"POST", .ok []⟩ emptyEnv).response.status = 400 ∧
    (fetch calmRuntime ⟨"POST", .ok []⟩ emptyEnv).response.header
      "Access-Control-Allow-Origin" = none := by
  refine ⟨?_, by decide, by decide, by decide, by decide⟩
  intro rt request env
  by_cases ho : request.method = "OPTIONS"
  · rw [fetch_options rt request env ho]
    simp [Response.new, Response.header, preflightHeaders]
  by_cases hm : request.method = "POST"
  swap
  · rw [fetch_not_allowed rt request env ho hm]
    simp [Response.new, Response.header]
  cases hf : request.formData with
  | error m =>
    rw [fetch_parse_failure rt request env m hm hf]
    simp [errorResponse_cors, errorResponse_status]
  | ok formData =>
    by_cases hv : (formData.get "image").truthy = false ∨ (formData.get "label").truthy = false
    · rw [fetch_falsy_field rt request env formData hm hf hv]
      simp [Response.new, Response.header]
    have hi : (formData.get "image").truthy = true := by
      cases h : (formData.get "image").truthy <;> simp_all
    have hl : (formData.get "label").truthy = true := by
      cases h : (formData.get "label").truthy <;> simp_all
    cases hn : safeName (formData.get "filename") with
    | error m =>
      rw [fetch_name_failure rt request env formData m hm hf hi hl hn]
      simp [errorResponse_cors, errorResponse_status]
    | ok name =>
      cases hp : rt.imagePut with
      | some m =>
        rw [fetch_image_put_failure rt request env formData name m hm hf hi hl hn hp]
        simp [errorResponse_cors, errorResponse_status]
      | none =>
        cases hq : rt.labelPut with
        | some m =>
          rw [fetch_label_put_failure rt request env formData name m hm hf hi hl hn hp hq]
          simp [errorResponse_cors, errorResponse_status]
        | none =>
          rw [fetch_success rt request env formData name hm hf hi hl hn hp hq]
          simp only [successResponse_cors]
          simp [successResponse, Response.new]

/-- C5: a POST whose parsed form lacks the `image` field, the `label` field, or
both, is answered with status 400 and the plain-text body
`Missing image or label`; the bucket is unchanged and no `put` is attempted. -/
theorem missing_field_responds_400 (rt : Runtime) (request : Request) (env : Env)
    (formData : FormData)
    (hm : request.method = "POST") (hf : request.formData = .ok formData)
    (h : (∀ v, ("image", v) ∉ formData) ∨ (∀ v, ("label", v) ∉ formData)) :
    (fetch rt request env).response.status = 400 ∧
    (fetch rt request env).response.body = some "Missing image or label" ∧
    (fetch rt request env).response.header "Content-Type" = some "text/plain;charset=UTF-8" ∧
    (fetch rt request env).bucket = env.DATASET_BUCKET ∧
    (fetch rt request env).calls = [.formData] := by
  have hv : (formData.get "image").truthy = false ∨ (formData.get "label").truthy = false := by
    rcases h with h | h
    · left; rw [get_null_of_absent formData "image" h]; rfl
    · right; rw [get_null_of_absent formData "label" h]; rfl
  rw [fetch_falsy_field rt request env formData hm hf hv]
  exact ⟨rfl, rfl, missingResponse_contentType, rfl, rfl⟩

theorem missing_field_responds_400_witness :
    ((∀ v, ("image", v) ∉ unlabelledForm) ∨ (∀ v, ("label", v) ∉ unlabelledForm)) ∧
    (fetch calmRuntime ⟨"POST", .ok unlabelledForm⟩ emptyEnv).response.status = 400 ∧
    (fetch calmRuntime ⟨"POST", .ok unlabelledForm⟩ emptyEnv).response.body =
      some "Missing image or label" ∧
    (fetch calmRuntime ⟨"POST", .ok unlabelledForm⟩ emptyEnv).calls = [.formData] :=
  have hn : (∀ v, ("image", v) ∉ unlabelledForm) ∨ (∀ v, ("label", v) ∉ unlabelledForm) :=
    Or.inr (by intro v; simp [unlabelledForm])
  have h := missing_field_responds_400 calmRuntime ⟨"POST", .ok unlabelledForm⟩ emptyEnv
    unlabelledForm rfl rfl hn
  ⟨hn, h.1, h.2.1, h.2.2.2.2⟩

/-- C9: for a request whose method is not `POST` the handler leaves the bucket
unchanged and makes no call at all (it neither parses the body nor writes).  For
`OPTIONS` the response has status 200, the `null` body and the three CORS
headers (`Allow-Methods` is `POST, OPTIONS`, `Allow-Headers` is `Content-Type`);
for every other method it has status 405 and the plain-text body
`Method Not Allowed`. -/
theorem non_post_request (rt : Runtime) (request : Request) (env : Env)
    (hm : request.method ≠ "POST") :
    (fetch rt request env).bucket = env.DATASET_BUCKET ∧
    (fetch rt request env).calls = [] ∧
    (request.method = "OPTIONS" →
      (fetch rt request env).response.status = 200 ∧
      (fetch rt request env).response.body = none ∧
      (fetch rt request env).response.header "Access-Control-Allow-Origin" = some "*" ∧
      (fetch rt request env).response.header "Access-Control-Allow-Methods" =
        some "POST, OPTIONS" ∧
      (fetch rt request env).response.header "Access-Control-Allow-Headers" =
        some "Content-Type") ∧
    (request.method ≠ "OPTIONS" →
      (fetch rt request env).response.status = 405 ∧
      (fetch rt request env).response.body = some "Method Not Allowed" ∧
      (fetch rt request env).response.header "Content-Type" =
        some "text/plain;charset=UTF-8") := by
  by_cases ho : request.method = "OPTIONS"
  · rw [fetch_options rt request env ho]
    exact ⟨rfl, rfl, fun _ => ⟨rfl, rfl, preflight_headers.1, preflight_headers.2.1,
      preflight_headers.2.2⟩, fun h => absurd ho h⟩
  · rw [fetch_not_allowed rt request env ho hm]
    exact ⟨rfl, rfl, fun h => absurd h ho, fun _ => ⟨rfl, rfl, notAllowedResponse_contentType⟩⟩

theorem non_post_request_witness :
    "DELETE" ≠ "POST" ∧
    (fetch calmRuntime ⟨"DELETE", .ok exampleForm⟩ emptyEnv).calls = [] ∧
    (fetch calmRuntime ⟨"DELETE", .ok exampleForm⟩ emptyEnv).response.status = 405 :=
  have h := non_post_request calmRuntime ⟨"DELETE", .ok exampleForm⟩ emptyEnv (by decide)
  ⟨by decide, h.2.1, (h.2.2.2 (by decide)).1⟩

/-- C10: a POST whose `label` field is the empty string is answered like one
without a label, whatever the other fields are: status 400, body
`Missing image or label`, the bucket unchanged and no `put` attempted. -/
theorem empty_label_responds_400 (rt : Runtime) (request : Request) (env : Env)
    (formData : FormData)
    (hm : request.method = "POST") (hf : request.formData = .ok formData)
    (hl : formData.get "label" = .string "") :
    (fetch rt request env).response.status = 400 ∧
    (fetch rt request env).response.body = some "Missing image or label" ∧
    (fetch rt request env).bucket = env.DATASET_BUCKET ∧
    (fetch rt request env).calls = [.formData] := by
  have hv : (formData.get "image").truthy = false ∨ (formData.get "label").truthy = false :=
    Or.inr (by rw [hl]; rfl)
  rw [fetch_falsy_field rt request env formData hm hf hv]
  exact ⟨rfl, rfl, rfl, rfl⟩

theorem empty_label_responds_400_witness :
    emptyLabelForm.get "label" = .string "" ∧
    (fetch calmRuntime ⟨"POST", .ok emptyLabelForm⟩ emptyEnv).response.status = 400 ∧
    (fetch calmRuntime ⟨"POST", .ok emptyLabelForm⟩ emptyEnv).response.body =
      some "Missing image or label" ∧
    (fetch calmRuntime ⟨"POST", .ok emptyLabelForm⟩ emptyEnv).calls = [.formData] :=
  have h := empty_label_responds_400 calmRuntime ⟨"POST", .ok emptyLabelForm⟩ emptyEnv
    emptyLabelForm rfl rfl (by decide)
  ⟨by decide, h.1, h.2.1, h.2.2.2⟩

/-- C3: the clean name of every file name consists of characters of
`[A-Za-z0-9_-]` only; when the name ends in a dot followed by a non-empty run
without dot or slash (its extension), the clean name is the second replacement
applied to what precedes that dot, and otherwise to the whole name; the second
replacement turns every character outside the class into an underscore (one per
UTF-16 code unit, so one per character of the Basic Multilingual Plane) and
keeps the others; for `my photo!!.PNG` the clean name is `my_photo__`. -/
theorem safeName_clean (name : String) :
    (∀ c ∈ (safeNameOf name).data,
      ('a' ≤ c ∧ c ≤ 'z') ∨ ('A' ≤ c ∧ c ≤ 'Z') ∨ ('0' ≤ c ∧ c ≤ '9') ∨ c = '-' ∨ c = '_') ∧
    (∀ base ext : List Char, name.data = base ++ '.' :: ext → ext ≠ [] →
      (∀ c ∈ ext, c ≠ '.' ∧ c ≠ '/') → (safeNameOf name).data = replaceUnsafe base) ∧
    ((¬ ∃ base ext : List Char, name.data = base ++ '.' :: ext ∧ ext ≠ [] ∧
        ∀ c ∈ ext, c ≠ '.' ∧ c ≠ '/') → (safeNameOf name).data = replaceUnsafe name.data) ∧
    (∀ cs : List Char, (∀ c ∈ cs, c.toNat < 65536) →
      replaceUnsafe cs = cs.map (fun c => if isSafeChar c then c else '_')) ∧
    safeNameOf "my photo!!.PNG" = "my_photo__" := by
  refine ⟨?_, ?_, ?_, replaceUnsafe_eq_map, by decide⟩
  · intro c hc
    have h := replaceUnsafe_safe _ c hc
    simp only [isSafeChar, Bool.or_eq_true, Bool.and_eq_true, decide_eq_true_eq,
      beq_iff_eq] at h
    tauto
  · intro base ext hname hne hext
    show replaceUnsafe (replaceExtension name.data) = replaceUnsafe base
    rw [hname, replaceExtension_append ext hne hext base]
  · intro h
    show replaceUnsafe (replaceExtension name.data) = replaceUnsafe name.data
    rw [replaceExtension_none name.data h]

theorem safeName_clean_witness :
    ("archive.tar.gz".data = "archive.tar".data ++ '.' :: "gz".data ∧ "gz".data ≠ [] ∧
      ∀ c ∈ "gz".data, c ≠ '.' ∧ c ≠ '/') ∧
    (safeNameOf "archive.tar.gz").data = replaceUnsafe "archive.tar".data ∧
    safeNameOf "archive.tar.gz" = "archive_tar" :=
  have h1 : "archive.tar.gz".data = "archive.tar".data ++ '.' :: "gz".data := by decide
  have h2 : "gz".data ≠ [] := by decide
  have h3 : ∀ c ∈ "gz".data, c ≠ '.' ∧ c ≠ '/' := by decide
  ⟨⟨h1, h2, h3⟩, (safeName_clean "archive.tar.gz").2.1 _ _ h1 h2 h3, by decide⟩

/-- C4 (as the code behaves): two sequential complete submissions for `cat.jpg`
that observe the same clock reading and the same draw get the same identifier,
against the comment of line 42 (a unique identifier, to prevent overwrites);
both are answered 200 and the second replaces the image and the label the first
one stored. -/
theorem same_reading_same_identifier :
    (fetch calmRuntime ⟨"POST", .ok exampleForm⟩ emptyEnv).response.status = 200 ∧
    (fetch calmRuntime ⟨"POST", .ok otherForm⟩
      ⟨(fetch calmRuntime ⟨"POST", .ok exampleForm⟩ emptyEnv).bucket⟩).response.status = 200 ∧
    (fetch calmRuntime ⟨"POST", .ok exampleForm⟩ emptyEnv).response.body =
      some "\x7b\x22success\x22:true,\x22id\x22:\x221700000000000_42_cat\x22\x7d" ∧
    (fetch calmRuntime ⟨"POST", .ok otherForm⟩
      ⟨(fetch calmRuntime ⟨"POST", .ok exampleForm⟩ emptyEnv).bucket⟩).response.body =
      some "\x7b\x22success\x22:true,\x22id\x22:\x221700000000000_42_cat\x22\x7d" ∧
    (fetch calmRuntime ⟨"POST", .ok exampleForm⟩ emptyEnv).bucket
        "images/1700000000000_42_cat.jpg" =
      some ⟨.bytes exampleImage.bytes, some "image/jpeg"⟩ ∧
    (fetch calmRuntime ⟨"POST", .ok otherForm⟩
      ⟨(fetch calmRuntime ⟨"POST", .ok exampleForm⟩ emptyEnv).bucket⟩).bucket
        "images/1700000000000_42_cat.jpg" =
      some ⟨.bytes otherImage.bytes, some "image/png"⟩ ∧
    (fetch calmRuntime ⟨"POST", .ok otherForm⟩
      ⟨(fetch calmRuntime ⟨"POST", .ok exampleForm⟩ emptyEnv).bucket⟩).bucket
        "labels/1700000000000_42_cat.txt" =
      some ⟨.text "1 0.1 0.1 0.3 0.3", some "text/plain"⟩ := by
  decide

/-- The extent to which lines 43 to 47 separate two runs: for two sequential
complete submissions with the same file name whose writes succeed, both are
answered with their identifier, and the two identifiers are equal exactly when
the two runs observe the same clock reading and the same draw; when they
differ, the second run writes to other keys and the first pair is still in the
bucket afterwards. -/
theorem identifiers_distinct_iff (rt₁ rt₂ : Runtime) (request₁ request₂ : Request) (env : Env)
    (form₁ form₂ : FormData) (name : String)
    (hm₁ : request₁.method = "POST") (hf₁ : request₁.formData = .ok form₁)
    (hi₁ : (form₁.get "image").truthy = true) (hl₁ : (form₁.get "label").truthy = true)
    (hn₁ : form₁.get "filename" = .string name)
    (hp₁ : rt₁.imagePut = none) (hq₁ : rt₁.labelPut = none)
    (hm₂ : request₂.method = "POST") (hf₂ : request₂.formData = .ok form₂)
    (hi₂ : (form₂.get "image").truthy = true) (hl₂ : (form₂.get "label").truthy = true)
    (hn₂ : form₂.get "filename" = .string name)
    (hp₂ : rt₂.imagePut = none) (hq₂ : rt₂.labelPut = none) :
    (fetch rt₁ request₁ env).response =
      successResponse (uniqueId rt₁.now rt₁.random (safeNameOf name)) ∧
    (fetch rt₂ request₂ ⟨(fetch rt₁ request₁ env).bucket⟩).response =
      successResponse (uniqueId rt₂.now rt₂.random (safeNameOf name)) ∧
    (uniqueId rt₁.now rt₁.random (safeNameOf name) =
        uniqueId rt₂.now rt₂.random (safeNameOf name) ↔
      rt₁.now = rt₂.now ∧ rt₁.random = rt₂.random) ∧
    (¬ (rt₁.now = rt₂.now ∧ rt₁.random = rt₂.random) →
      (fetch rt₂ request₂ ⟨(fetch rt₁ request₁ env).bucket⟩).bucket
          ("images/" ++ uniqueId rt₁.now rt₁.random (safeNameOf name) ++ ".jpg") =
        some ⟨(form₁.get "image").content, (form₁.get "image").type⟩ ∧
      (fetch rt₂ request₂ ⟨(fetch rt₁ request₁ env).bucket⟩).bucket
          ("labels/" ++ uniqueId rt₁.now rt₁.random (safeNameOf name) ++ ".txt") =
        some ⟨(form₁.get "label").content, some "text/plain"⟩) := by
  have hs₁ : safeName (form₁.get "filename") = .ok (safeNameOf name) := by rw [hn₁]; rfl
  have hs₂ : safeName (form₂.get "filename") = .ok (safeNameOf name) := by rw [hn₂]; rfl
  have hiff : uniqueId rt₁.now rt₁.random (safeNameOf name) =
        uniqueId rt₂.now rt₂.random (safeNameOf name) ↔
      rt₁.now = rt₂.now ∧ rt₁.random = rt₂.random := by
    rw [uniqueId_inj]
    constructor
    · rintro ⟨h1, h2, _⟩; exact ⟨h1, Fin.ext h2⟩
    · rintro ⟨h1, h2⟩; exact ⟨h1, by rw [h2], rfl⟩
  rw [fetch_success rt₁ request₁ env form₁ _ hm₁ hf₁ hi₁ hl₁ hs₁ hp₁ hq₁]
  rw [fetch_success rt₂ request₂ _ form₂ _ hm₂ hf₂ hi₂ hl₂ hs₂ hp₂ hq₂]
  refine ⟨rfl, rfl, hiff, ?_⟩
  intro hne
  have hid : uniqueId rt₁.now rt₁.random (safeNameOf name) ≠
      uniqueId rt₂.now rt₂.random (safeNameOf name) := fun h => hne (hiff.1 h)
  have k1 := labels_ne_images (uniqueId rt₂.now rt₂.random (safeNameOf name))
    (uniqueId rt₁.now rt₁.random (safeNameOf name))
  have k2 := labels_ne_images (uniqueId rt₁.now rt₁.random (safeNameOf name))
    (uniqueId rt₂.now rt₂.random (safeNameOf name))
  have k3 := labels_ne_images (uniqueId rt₁.now rt₁.random (safeNameOf name))
    (uniqueId rt₁.now rt₁.random (safeNameOf name))
  have k4 := mt (images_key_inj (uniqueId rt₁.now rt₁.random (safeNameOf name))
    (uniqueId rt₂.now rt₂.random (safeNameOf name))).1 hid
  have k5 := mt (labels_key_inj (uniqueId rt₁.now rt₁.random (safeNameOf name))
    (uniqueId rt₂.now rt₂.random (safeNameOf name))).1 hid
  constructor
  · simp only [Ne.symm k1, k4, Ne.symm k3, if_false, if_true]
  · simp only [k5, k2, if_false, if_true]

theorem identifiers_distinct_iff_witness :
    ¬ (calmRuntime.now = laterRuntime.now ∧ calmRuntime.random = laterRuntime.random) ∧
    uniqueId calmRuntime.now calmRuntime.random (safeNameOf "cat.jpg") ≠
      uniqueId laterRuntime.now laterRuntime.random (safeNameOf "cat.jpg") ∧
    (fetch laterRuntime ⟨"POST", .ok otherForm⟩
      ⟨(fetch calmRuntime ⟨"POST", .ok exampleForm⟩ emptyEnv).bucket⟩).bucket
        ("images/" ++ uniqueId calmRuntime.now calmRuntime.random (safeNameOf "cat.jpg") ++
          ".jpg") =
      some ⟨.bytes exampleImage.bytes, some "image/jpeg"⟩ :=
  have h := identifiers_distinct_iff calmRuntime laterRuntime ⟨"POST", .ok exampleForm⟩
    ⟨"POST", .ok otherForm⟩ emptyEnv exampleForm otherForm "cat.jpg"
    rfl rfl (by decide) (by decide) (by decide) rfl rfl
    rfl rfl (by decide) (by decide) (by decide) rfl rfl
  have hne : ¬ (calmRuntime.now = laterRuntime.now ∧
      calmRuntime.random = laterRuntime.random) := by decide
  ⟨hne, fun e => hne (h.2.2.1.1 e), (h.2.2.2 hne).1⟩

/-- C6: a POST with an image part (bytes and declared type), a non-empty label
text and a file name, both writes succeeding, is answered with status 200 and
the JSON body `success: true, id` where `id` is the clock reading, the draw and
the clean name joined by underscores (a non-empty string, unescaped in the
body); afterwards the bucket is the one before the request with the image bytes
under `images/<id>.jpg` (with the declared type) and the label text under
`labels/<id>.txt` (with `text/plain`), two different keys, and the only calls
made are the parse and these two writes. -/
theorem valid_post_stores_pair (rt : Runtime) (request : Request) (env : Env)
    (formData : FormData) (image : File) (label name : String)
    (hm : request.method = "POST") (hf : request.formData = .ok formData)
    (hi : formData.get "image" = .file image) (hl : formData.get "label" = .string label)
    (hne : label ≠ "") (hn : formData.get "filename" = .string name)
    (hp : rt.imagePut = none) (hq : rt.labelPut = none) :
    ∃ id : String,
      id = toString rt.now ++ "_" ++ toString rt.random.val ++ "_" ++ safeNameOf name ∧
      id ≠ "" ∧
      (fetch rt request env).response.status = 200 ∧
      (fetch rt request env).response.body =
        some ("\x7b\x22success\x22:true,\x22id\x22:\x22" ++ id ++ "\x22\x7d") ∧
      (fetch rt request env).response.header "Content-Type" = some "application/json" ∧
      (fetch rt request env).response.header "Access-Control-Allow-Origin" = some "*" ∧
      (fetch rt request env).bucket =
        (fun k =>
          if k = "labels/" ++ id ++ ".txt" then some ⟨.text label, some "text/plain"⟩
          else if k = "images/" ++ id ++ ".jpg" then some ⟨.bytes image.bytes, some image.type⟩
          else env.DATASET_BUCKET k) ∧
      "labels/" ++ id ++ ".txt" ≠ "images/" ++ id ++ ".jpg" ∧
      (fetch rt request env).calls =
        [.formData, .put ("images/" ++ id ++ ".jpg"), .put ("labels/" ++ id ++ ".txt")] := by
  have hit : (formData.get "image").truthy = true := by rw [hi]; rfl
  have hlt : (formData.get "label").truthy = true := by
    rw [hl]; simpa [JSValue.truthy] using hne
  have hs : safeName (formData.get "filename") = .ok (safeNameOf name) := by rw [hn]; rfl
  refine ⟨uniqueId rt.now rt.random (safeNameOf name), rfl, ?_, ?_⟩
  · intro h
    have := congrArg String.data h
    rw [uniqueId_data] at this
    simp at this
  · rw [fetch_success rt request env formData _ hm hf hit hlt hs hp hq, hi, hl]
    refine ⟨rfl, ?_, successResponse_contentType _, successResponse_cors _, rfl,
      labels_ne_images _ _, rfl⟩
    show some _ = some _
    rw [stringify_success]

theorem valid_post_stores_pair_witness :
    (exampleForm.get "image" = .file exampleImage ∧
      exampleForm.get "label" = .string "0 0.5 0.5 0.2 0.2" ∧
      exampleForm.get "filename" = .string "cat.jpg" ∧ exampleImage.bytes.length = 10) ∧
    ∃ id : String,
      id = toString calmRuntime.now ++ "_" ++ toString calmRuntime.random.val ++ "_" ++
        safeNameOf "cat.jpg" ∧
      id ≠ "" ∧
      (fetch calmRuntime ⟨"POST", .ok exampleForm⟩ emptyEnv).response.status = 200 ∧
      (fetch calmRuntime ⟨"POST", .ok exampleForm⟩ emptyEnv).response.body =
        some ("\x7b\x22success\x22:true,\x22id\x22:\x22" ++ id ++ "\x22\x7d") ∧
      (fetch calmRuntime ⟨"POST", .ok exampleForm⟩ emptyEnv).response.header "Content-Type" =
        some "application/json" ∧
      (fetch calmRuntime ⟨"POST", .ok exampleForm⟩ emptyEnv).response.header
        "Access-Control-Allow-Origin" = some "*" ∧
      (fetch calmRuntime ⟨"POST", .ok exampleForm⟩ emptyEnv).bucket =
        (fun k =>
          if k = "labels/" ++ id ++ ".txt" then
            some ⟨.text "0 0.5 0.5 0.2 0.2", some "text/plain"⟩
          else if k = "images/" ++ id ++ ".jpg" then
            some ⟨.bytes exampleImage.bytes, some exampleImage.type⟩
          else emptyEnv.DATASET_BUCKET k) ∧
      "labels/" ++ id ++ ".txt" ≠ "images/" ++ id ++ ".jpg" ∧
      (fetch calmRuntime ⟨"POST", .ok exampleForm⟩ emptyEnv).calls =
        [.formData, .put ("images/" ++ id ++ ".jpg"), .put ("labels/" ++ id ++ ".txt")] :=
  ⟨⟨by decide, by decide, by decide, by decide⟩,
    valid_post_stores_pair calmRuntime ⟨"POST", .ok exampleForm⟩ emptyEnv exampleForm
      exampleImage "0 0.5 0.5 0.2 0.2" "cat.jpg" rfl rfl (by decide) (by decide) (by decide)
      (by decide) rfl rfl⟩

/-- C7: when a POST fails with message `m` in body parsing, or (image, label and
file name being usable) in the image write, or in the label write after a
successful image write, the handler returns a response: status 500, the JSON
body `error: m` and the header `Access-Control-Allow-Origin: *`. -/
theorem failure_responds_500 (rt : Runtime) (request : Request) (env : Env) (m : String)
    (hm : request.method = "POST")
    (h : request.formData = .error m ∨
      ∃ formData name, request.formData = .ok formData ∧
        (formData.get "image").truthy = true ∧ (formData.get "label").truthy = true ∧
        formData.get "filename" = .string name ∧
        (rt.imagePut = some m ∨ (rt.imagePut = none ∧ rt.labelPut = some m))) :
    (fetch rt request env).response.status = 500 ∧
    (fetch rt request env).response.body =
      some (JSON.stringify [("error", .str m)]) ∧
    (fetch rt request env).response.body =
      some ("\x7b\x22error\x22:" ++ quoteJSONString m ++ "\x7d") ∧
    (fetch rt request env).response.header "Access-Control-Allow-Origin" = some "*" := by
  have key : (fetch rt request env).response = errorResponse m := by
    rcases h with hf | ⟨formData, name, hf, hi, hl, hn, hw | ⟨hp, hq⟩⟩
    · rw [fetch_parse_failure rt request env m hm hf]
    · have hs : safeName (formData.get "filename") = .ok (safeNameOf name) := by rw [hn]; rfl
      rw [fetch_image_put_failure rt request env formData _ m hm hf hi hl hs hw]
    · have hs : safeName (formData.get "filename") = .ok (safeNameOf name) := by rw [hn]; rfl
      rw [fetch_label_put_failure rt request env formData _ m hm hf hi hl hs hp hq]
  rw [key]
  exact ⟨rfl, rfl, errorResponse_body m, errorResponse_cors m⟩

theorem failure_responds_500_witness :
    (fetch calmRuntime ⟨"POST", .error "Unrecognized Content-Type header value."⟩
      emptyEnv).response.status = 500 ∧
    (fetch calmRuntime ⟨"POST", .error "Unrecognized Content-Type header value."⟩
      emptyEnv).response.body =
      some "\x7b\x22error\x22:\x22Unrecognized Content-Type header value.\x22\x7d" :=
  have h := failure_responds_500 calmRuntime
    ⟨"POST", .error "Unrecognized Content-Type header value."⟩ emptyEnv
    "Unrecognized Content-Type header value." rfl (Or.inl rfl)
  ⟨h.1, h.2.2.1.trans (by decide)⟩

/-- C8: when the image write of a complete POST succeeds and the label write
then throws, the response has status 500, the bucket afterwards is the bucket
before the request with the image object added under `images/<id>.jpg` and
nothing else changed (in particular `labels/<id>.txt` holds what it held
before), and the only calls made are the parse and the two writes: no delete,
no second attempt. -/
theorem label_failure_leaves_image (rt : Runtime) (request : Request) (env : Env)
    (formData : FormData) (name m : String)
    (hm : request.method = "POST") (hf : request.formData = .ok formData)
    (hi : (formData.get "image").truthy = true) (hl : (formData.get "label").truthy = true)
    (hn : formData.get "filename" = .string name)
    (hp : rt.imagePut = none) (hq : rt.labelPut = some m) :
    (fetch rt request env).response.status = 500 ∧
    (fetch rt request env).bucket =
      (fun k =>
        if k = "images/" ++ uniqueId rt.now rt.random (safeNameOf name) ++ ".jpg" then
          some ⟨(formData.get "image").content, (formData.get "image").type⟩
        else env.DATASET_BUCKET k) ∧
    (fetch rt request env).bucket
        ("labels/" ++ uniqueId rt.now rt.random (safeNameOf name) ++ ".txt") =
      env.DATASET_BUCKET ("labels/" ++ uniqueId rt.now rt.random (safeNameOf name) ++ ".txt") ∧
    (fetch rt request env).calls =
      [.formData, .put ("images/" ++ uniqueId rt.now rt.random (safeNameOf name) ++ ".jpg"),
        .put ("labels/" ++ uniqueId rt.now rt.random (safeNameOf name) ++ ".txt")] := by
  have hs : safeName (formData.get "filename") = .ok (safeNameOf name) := by rw [hn]; rfl
  rw [fetch_label_put_failure rt request env formData _ m hm hf hi hl hs hp hq]
  refine ⟨rfl, rfl, ?_, rfl⟩
  simp only [labels_ne_images, if_false]

theorem label_failure_leaves_image_witness :
    (labelFaultRuntime.imagePut = none ∧
      labelFaultRuntime.labelPut = some "Network connection lost.") ∧
    (fetch labelFaultRuntime ⟨"POST", .ok exampleForm⟩ emptyEnv).response.status = 500 ∧
    (fetch labelFaultRuntime ⟨"POST", .ok exampleForm⟩ emptyEnv).bucket
        "images/1700000000000_42_cat.jpg" =
      some ⟨.bytes exampleImage.bytes, some "image/jpeg"⟩ ∧
    (fetch labelFaultRuntime ⟨"POST", .ok exampleForm⟩ emptyEnv).bucket
        "labels/1700000000000_42_cat.txt" = none :=
  have h := label_failure_leaves_image labelFaultRuntime ⟨"POST", .ok exampleForm⟩ emptyEnv
    exampleForm "cat.jpg" "Network connection lost." rfl rfl (by decide) (by decide)
    (by decide) rfl rfl
  ⟨⟨rfl, rfl⟩, h.1, by rw [h.2.1]; decide, h.2.2.1.trans (by decide)⟩

end Worker
